import Mathlib

/-!
Verification development for the TFOP SG1 upload utility
(`src/sg1_utility.py`). The single source function `upload` is embedded
shallowly: filenames are `String`s processed as `List Char`, the
measurement tables read by the external table reader are modelled as
associative column maps over `ℚ`, the network and reader collaborators
are oracle functions in an `Env` record, interactive input is a list of
answer strings, and the process outcome (normal return, fatal `_err`
exit, uncaught exception) is an explicit `Outcome` value.

Python floats are modelled by `ℚ`; `list.sort`/`sorted` by a stable
insertion sort; `str.strip`/`str.lower` by character-list operations.
-/

section SG1

attribute [local semireducible] Rat.add Rat.sub Rat.mul Rat.inv

/-- Lexicographic strict order on character lists by code point; this is
exactly the order Python uses to compare the (ASCII) filenames handled
by the utility. -/
def lexLt : List Char → List Char → Bool
  | [], [] => false
  | [], _ :: _ => true
  | _ :: _, [] => false
  | a :: as, b :: bs => if a < b then true else if b < a then false else lexLt as bs

/-- Strict `<` on strings, Python style. -/
def strLt (a b : String) : Bool := lexLt a.data b.data

/-- Non-strict comparison used by the sort model. -/
def strLe (a b : String) : Bool := !(strLt b a)

/-- Stable insertion of `a` into `l`: `a` goes before the first element
`b` with `le a b`. -/
def insertLe (le : α → α → Bool) (a : α) : List α → List α
  | [] => [a]
  | b :: t => if le a b then a :: b :: t else b :: insertLe le a t

/-- Stable sort modelling Python `sorted` / `list.sort`. -/
def sortBy (le : α → α → Bool) : List α → List α
  | [] => []
  | a :: t => insertLe le a (sortBy le t)

/-- Whitespace trimming, modelling Python `str.strip()`. -/
def trimChars (l : List Char) : List Char :=
  ((l.dropWhile Char.isWhitespace).reverse.dropWhile Char.isWhitespace).reverse

/-- String form of `trimChars`. -/
def trimStr (s : String) : String := String.mk (trimChars s.data)

/-- Lower-casing, modelling Python `str.lower()` on ASCII input. -/
def lowerStr (s : String) : String := String.mk (s.data.map Char.toLower)

/-- Containment of `needle` as a contiguous segment, modelling Python
`needle in haystack`. -/
def containsSeg (needle : List Char) : List Char → Bool
  | [] => needle.isEmpty
  | c :: rest => needle.isPrefixOf (c :: rest) || containsSeg needle rest

/-- Value of a digit string, modelling Python `int` on digit-only input. -/
def digitsToNat (l : List Char) : ℕ :=
  l.foldl (fun n c => 10 * n + (c.toNat - 48)) 0

/-- Rounding to the nearest integer with ties to the nearest even
integer, modelling Python `round`. -/
def pyRound (q : ℚ) : ℤ :=
  let f : ℤ := Int.floor q
  let r : ℚ := q - f
  if r < 1/2 then f
  else if (1/2 : ℚ) < r then f + 1
  else if Even f then f else f + 1

/-- Comparison on `ℚ` as a boolean, for the sort model. -/
def ratLe (a b : ℚ) : Bool := decide (a ≤ b)

/-- Median of a list of rationals (`np.nanmedian` on NaN-free data):
middle element of the sorted list, or the mean of the two middle
elements for even length. The empty list (not reachable on the
scenarios considered) is mapped to `0`. -/
def medianQ (l : List ℚ) : ℚ :=
  let s := sortBy ratLe l
  let n := l.length
  if n = 0 then 0
  else if n % 2 = 1 then s.getD (n / 2) 0
  else (s.getD (n / 2 - 1) 0 + s.getD (n / 2) 0) / 2

/-- Maximum of a list of rationals (`np.nanmax` on NaN-free data). -/
def maxQ : List ℚ → ℚ
  | [] => 0
  | a :: t => t.foldl max a

/-- Minimum of a list of rationals (`np.nanmin` on NaN-free data). -/
def minQ : List ℚ → ℚ
  | [] => 0
  | a :: t => t.foldl min a

/-- Span `max − min` of a column, the variability measure of the code. -/
def spanQ (l : List ℚ) : ℚ := maxQ l - minQ l

/-- Mean of a list of rationals (`np.mean`). -/
def meanQ (l : List ℚ) : ℚ := (l.foldl (· + ·) 0) / l.length

/-- Decimal rendering of a rational rounded to one decimal place,
modelling `str(round(med, 1))` on the values produced here. -/
def qRound1Str (q : ℚ) : String :=
  let n : ℤ := pyRound (10 * q)
  let a : ℕ := n.natAbs
  (if n < 0 then "-" else "") ++ toString (a / 10) ++ "." ++ toString (a % 10)

/-- Modelled from the spec: the numeric validation performed by the
external Python float parser on the prompt answers (an optional sign,
digits with an optional decimal point, and an optional exponent; the
special spellings such as inf/nan are not modelled). Exponent tail:
optional sign then at least one digit and nothing else. -/
def expTailOK (l : List Char) : Bool :=
  let l1 := match l with
    | '+' :: r => r
    | '-' :: r => r
    | r => r
  !(l1.takeWhile Char.isDigit).isEmpty && (l1.dropWhile Char.isDigit).isEmpty

/-- Optional exponent part of a float literal. -/
def expPartOK : List Char → Bool
  | [] => true
  | 'e' :: r => expTailOK r
  | 'E' :: r => expTailOK r
  | _ => false

/-- Mantissa (with optional decimal point) followed by an optional
exponent. -/
def mantissaOK (l : List Char) : Bool :=
  let d1 := l.takeWhile Char.isDigit
  let r1 := l.dropWhile Char.isDigit
  match r1 with
  | '.' :: r2 =>
    let d2 := r2.takeWhile Char.isDigit
    let r3 := r2.dropWhile Char.isDigit
    (!d1.isEmpty || !d2.isEmpty) && expPartOK r3
  | _ => !d1.isEmpty && expPartOK r1

/-- Acceptance test of the float parser on a whole string. -/
def isPyFloat (s : String) : Bool :=
  match s.data with
  | '+' :: r => mantissaOK r
  | '-' :: r => mantissaOK r
  | r => mantissaOK r

/-- Character class of the OBSERVATORY field: `[A-Za-z0-9\-]`. -/
def isObsChar (c : Char) : Bool := c.isAlphanum || c == '-'

/-- Character class of the FILTER field: `[A-Za-z0-9\-\+]`. -/
def isFltChar (c : Char) : Bool := c.isAlphanum || c == '-' || c == '+'

/-- Capture groups of the base filename regular expression
`^(?P<tgt>TIC\d+)-(?P<pp>\d{2})_(?P<ymd>\d{8})_(?P<obs>[A-Za-z0-9\-]+)_(?P<flt>[A-Za-z0-9\-\+]+)(?:_(?P<px>\d+)px)?_(?P<tail>.+)$`;
`px = []` when the optional group is absent (the code replaces a missing
group by the empty string). -/
structure BaseMatch where
  tgt : List Char
  pp : List Char
  ymd : List Char
  obs : List Char
  flt : List Char
  px : List Char
  tail : List Char
deriving DecidableEq

/-- Resolution of the optional `(?:_(?P<px>\d+)px)?_` part against the
remainder `r8` that follows the filter field and its `_`. The greedy
engine takes the pixel-size alternative exactly when `r8` is a digit
run followed by `px`, `_` and a non-empty tail; otherwise the optional
group is empty and the whole remainder (if non-empty) is the tail. -/
def parsePxTail (tgt pp ymd obs flt : List Char) (r8 : List Char) : Option BaseMatch :=
  let dg := r8.takeWhile Char.isDigit
  let r9 := r8.dropWhile Char.isDigit
  match dg, r9 with
  | _ :: _, 'p' :: 'x' :: '_' :: c :: t => some ⟨tgt, pp, ymd, obs, flt, dg, c :: t⟩
  | _, _ =>
    match r8 with
    | [] => none
    | _ => some ⟨tgt, pp, ymd, obs, flt, [], r8⟩

/-- Matching of the base filename pattern. All quantified subpatterns of
the regular expression are separated by characters excluded from the
preceding character class, so greedy matching with backtracking reduces
to this deterministic split. -/
def parseBase (s : List Char) : Option BaseMatch :=
  match s with
  | 'T' :: 'I' :: 'C' :: r0 =>
    let d := r0.takeWhile Char.isDigit
    let r1 := r0.dropWhile Char.isDigit
    match d, r1 with
    | _ :: _, '-' :: p1 :: p2 :: '_' :: r2 =>
      if p1.isDigit && p2.isDigit then
        let y := r2.take 8
        let r3 := r2.drop 8
        if y.length == 8 && y.all Char.isDigit then
          match r3 with
          | '_' :: r4 =>
            let obs := r4.takeWhile isObsChar
            let r5 := r4.dropWhile isObsChar
            match obs, r5 with
            | _ :: _, '_' :: r6 =>
              let flt := r6.takeWhile isFltChar
              let r7 := r6.dropWhile isFltChar
              match flt, r7 with
              | _ :: _, '_' :: r8 =>
                parsePxTail ('T' :: 'I' :: 'C' :: d) [p1, p2] y obs flt r8
              | _, _ => none
            | _, _ => none
          | _ => none
        else none
      else none
    | _, _ => none
  | _ => none

/-- The ordered rule table `allowed_specs` of the code: literal tail
spelling (each regular expression in the source is a fully escaped
literal under `fullmatch`) paired with its descriptor label, in the
fixed priority order of the Python dict literal. -/
def allowedSpecs : List (String × String) :=
  [("measurements_NEBcheck.zip", "NEB Depth Plots"),
   ("measurements_NEB-table.txt", "NEB Table"),
   ("measurements_dmagRMS-plot.png", "Dmag vs. RMS Plot"),
   ("measurements.tbl", "AstroImageJ Photometry Measurement Table"),
   ("measurements.plotcfg", "AstroImageJ Plot Configuration File"),
   ("measurements.radec", "AstroImageJ Photometry Aperture File"),
   ("lightcurve.png", "Light Curve Plot"),
   ("compstar-lightcurves.png", "Compstar Light Curve Plots"),
   ("field.png", "Field Image with Apertures"),
   ("field-zoom.png", "Zoomed-in FOV"),
   ("seeing-profile.png", "Seeing Profile"),
   ("notes.txt", "Notes and Results Text"),
   ("WCS.fits", "Plate-Solved Image"),
   ("subset.csv", "Photometry Table Subset for Joint Fitting")]

/-- The per-filter required descriptor labels (`required_keys_per_filter`). -/
def requiredKeysPerFilter : List String :=
  ["AstroImageJ Photometry Measurement Table",
   "AstroImageJ Plot Configuration File",
   "AstroImageJ Photometry Aperture File",
   "Compstar Light Curve Plots",
   "Field Image with Apertures",
   "Zoomed-in FOV",
   "Plate-Solved Image",
   "Seeing Profile"]

/-- The run-wide required labels (`required_global`). -/
def requiredGlobal : List String := ["Notes and Results Text"]

/-- The optional labels (`optional_keys`): every descriptor label that is
neither per-filter required nor globally required. The code builds this
from a Python set, so only its membership is specified. -/
def optionalKeys : List String :=
  ((allowedSpecs.map Prod.snd).dedup).filter
    (fun v => !(requiredKeysPerFilter.contains v) && !(requiredGlobal.contains v))

/-- The fixed presentation/upload ordering `order_types`. -/
def orderTypes : List String :=
  ["AstroImageJ Photometry Measurement Table",
   "AstroImageJ Plot Configuration File",
   "AstroImageJ Photometry Aperture File",
   "Light Curve Plot",
   "Compstar Light Curve Plots",
   "Field Image with Apertures",
   "Zoomed-in FOV",
   "Seeing Profile",
   "Notes and Results Text",
   "Plate-Solved Image",
   "NEB Table",
   "NEB Depth Plots",
   "Dmag vs. RMS Plot",
   "Photometry Table Subset for Joint Fitting"]

/-- A file successfully matched against the grammar (`recognized` entry). -/
structure FileRecord where
  fn : String
  desc : String
  ymd : String
  obs : String
  flt : String
  px : String
deriving DecidableEq

/-- Result of classifying one filename: a `FileRecord` or a rejection
with exactly one reason string. -/
inductive ClassifyResult where
  | ok (r : FileRecord)
  | rejected (reason : String)
deriving DecidableEq

/-- The three rejection reasons emitted by the classification loop. -/
def classifyReasons : List String :=
  ["Name does not match pattern", "TIC/planet mismatch", "Unrecognized filetype token"]

/-- Classification of one filename against the grammar and the rule
table (the loop body at the classification stage of `upload`): pattern
match, then expected-target comparison, then first-match lookup of the
tail in `allowedSpecs`. -/
def classify (expectedTgt : String) (fn : String) : ClassifyResult :=
  match parseBase fn.data with
  | none => .rejected "Name does not match pattern"
  | some m =>
    if String.mk (m.tgt ++ '-' :: m.pp) ≠ expectedTgt then .rejected "TIC/planet mismatch"
    else
      match allowedSpecs.find? (fun pr => m.tail == pr.1.data) with
      | none => .rejected "Unrecognized filetype token"
      | some pr =>
        .ok ⟨fn, pr.2, String.mk m.ymd, String.mk m.obs, String.mk m.flt, String.mk m.px⟩

/-- The recognized records of a file list, in scan order. -/
def recognizedOf (expectedTgt : String) (files : List String) : List FileRecord :=
  files.filterMap (fun fn =>
    match classify expectedTgt fn with
    | .ok r => some r
    | .rejected _ => none)

/-- The rejected files of a file list with their reasons, in scan order. -/
def rejectedOf (expectedTgt : String) (files : List String) : List (String × String) :=
  files.filterMap (fun fn =>
    match classify expectedTgt fn with
    | .ok _ => none
    | .rejected why => some (fn, why))

/-- Ranking summary of one candidate measurement table, the tuple
`(fn, med, var, px)` appended to `stats` by the selection loop. -/
structure Stat where
  fn : String
  med : ℚ
  var : ℕ
  px : String
deriving DecidableEq

/-- Integer tie-break value of the pixel-size token:
`-int(px)` when the token is a non-empty digit string, else `0`. -/
def pxKeyOf (px : String) : ℤ :=
  if !px.data.isEmpty && px.data.all Char.isDigit then -(digitsToNat px.data : ℤ) else 0

/-- Lexicographic refinement of comparators: first compare the images
under `f`, and on a tie fall through to `le2`. -/
def cmpThen {β : Type} [LinearOrder β] (f : α → β) (le2 : α → α → Bool) (a b : α) : Bool :=
  if f a < f b then true else if f b < f a then false else le2 a b

/-- Comparison of two ranking summaries by the sort key
`(−med, var, pxKey px, fn)` in ascending lexicographic order. -/
def statLE : Stat → Stat → Bool :=
  cmpThen (fun s => -s.med) (cmpThen Stat.var (cmpThen (fun s => pxKeyOf s.px)
    (fun a b => strLe a.fn b.fn)))

/-- The filename selected by the code: sort the summaries by the key and
take the first (`stats.sort(key=...); stats[0][0]`). -/
def selectCanonical (stats : List Stat) : Option String :=
  ((sortBy statLE stats).head?).map Stat.fn

/-- The specified selection: the first summary whose key is less than or
equal to the key of every summary of the list. -/
def firstMinBy (stats : List Stat) : Option Stat :=
  stats.find? (fun x => stats.all (fun y => statLE x y))

/-- A measurement table as surfaced by the external reader: named
columns of rationals plus the row count `len(t)`. -/
structure MTable where
  cols : List (String × List ℚ)
  nrows : ℕ
deriving DecidableEq

/-- Column lookup, modelling `name in t.colnames` / `t[name]`. -/
def getCol (t : MTable) (name : String) : Option (List ℚ) :=
  (t.cols.find? (fun c => c.1 == name)).map Prod.snd

/-- External collaborators of the run: the table reader, the plate-scale
extraction from a WCS file (per-axis scales in degrees per pixel;
`none` models a reader exception), and the success of each network
call. -/
structure Env where
  tableRead : String → Option MTable
  wcsRead : String → Option (List ℚ)
  tseriesOK : String → Bool
  fileOK : String → Bool

/-- Ranking summary computed for one candidate table by the selection
loop: the sentinel `(−10⁹, 1)` when the reader raises or the
`Source_Radius` column is absent, else the median of that column and
the positivity of its span. -/
def statOf (env : Env) (x : FileRecord) : Stat :=
  match env.tableRead x.fn with
  | none => ⟨x.fn, -(1000000000 : ℚ), 1, x.px⟩
  | some t =>
    match getCol t "Source_Radius" with
    | none => ⟨x.fn, -(1000000000 : ℚ), 1, x.px⟩
    | some sr => ⟨x.fn, medianQ sr, if spanQ sr > 0 then 1 else 0, x.px⟩

/-- The candidate measurement tables of one filter, in recognition
order. -/
def candidatesFor (recognized : List FileRecord) (flt : String) : List FileRecord :=
  recognized.filter (fun x =>
    x.flt == flt && x.desc == "AstroImageJ Photometry Measurement Table")

/-- The ranking summaries of one filter. -/
def statsFor (env : Env) (recognized : List FileRecord) (flt : String) : List Stat :=
  (candidatesFor recognized flt).map (statOf env)

/-- The canonical table chosen for one filter (`chosen_tbl_by_flt`);
`none` when the filter has no candidates. -/
def chosenTbl (env : Env) (recognized : List FileRecord) (flt : String) : Option String :=
  selectCanonical (statsFor env recognized flt)

/-- The run configuration: the already-validated command-line arguments
that reach the directory-scanning part of `upload` (the model starts
after the login call; `ticNum`/`planetTic` are the parsed components of
the tic argument and `toiLblUpload` the upload label derived from the
toi argument). -/
structure Config where
  username : String
  ticNum : String
  planetTic : String
  toiLblUpload : String
  coverage : String
  telsize : String
  camera : String
  group : String
  psf : Option String
  deltamag : Option String
  notesArg : Option String
  skipSummary : Bool
  skipFiles : Bool
deriving DecidableEq

/-- The expected target `tgt_prefix = f"TIC{tic_num}-{planet_tic}"`. -/
def Config.expectedTgt (c : Config) : String :=
  "TIC" ++ c.ticNum ++ "-" ++ c.planetTic

/-- Process outcome of a run: normal return, `_err` (audible alert then
`sys.exit(1)`), or an uncaught Python exception. -/
inductive Outcome where
  | normal
  | fatal (msg : String)
  | exn
deriving DecidableEq

/-- Exit status of the process for each outcome: `_err` exits with
status 1, a normal return exits with status 0, and an uncaught
exception also terminates the interpreter with status 1 (but without
the audible alert of `_err`). -/
def exitCode : Outcome → ℕ
  | .normal => 0
  | .fatal _ => 1
  | .exn => 1

/-- One network call of the submission step. -/
inductive NetCall where
  | tseries (flt : String)
  | fileUpload (fn : String) (desc : String)
deriving DecidableEq

/-- Identity of each interactive prompt issued by the run. -/
inductive PromptKind where
  | proceedMissing
  | psfFor (flt : String)
  | dmagFor (flt : String)
  | submitConfirm
deriving DecidableEq

/-- A submission record (`entries`), with the field names of the wire
protocol. Numeric fields that the code stringifies only for transport
(`pixscale`, `obsdur`, `obsnum`) are kept at their computed types;
`pixscale` is kept before the 2-significant-figure formatting. -/
structure Entry where
  planet : String
  tel : String
  telsize : String
  camera : String
  filter : String
  pixscale : ℚ
  psf : String
  photaprad : String
  obsdate : String
  obsdur : ℤ
  obsnum : ℕ
  obstype : String
  transcov : String
  deltamag : String
  tag : String
  groupname : String
  notes : String
  id : String
deriving DecidableEq

/-- Mutable interaction state threaded through the run: the remaining
interactive answers, the prompts issued so far, the network calls made
so far, and the per-filter submission entries built so far. -/
structure St where
  stdin : List String
  prompts : List PromptKind
  calls : List NetCall
  entries : List (String × Entry)
deriving DecidableEq

/-- The disallowed-file test: a name ending in `seeing-profile.gif` or
containing `bjd-flux-err`. -/
def disallowedFile (fn : String) : Bool :=
  "seeing-profile.gif".data.isSuffixOf fn.data || containsSeg "bjd-flux-err".data fn.data

/-- The `found` lists of one filter: filenames of the records matching
the filter, date, observatory and descriptor, in recognition order. -/
def foundFiles (recognized : List FileRecord) (date obs flt desc : String) : List String :=
  (recognized.filter (fun x =>
    x.flt == flt && x.ymd == date && x.obs == obs && x.desc == desc)).map FileRecord.fn

/-- The missing required labels of one filter
(`[k for k in required_keys_per_filter if not found.get(k, [])]`). -/
def missingRequired (recognized : List FileRecord) (date obs flt : String) : List String :=
  requiredKeysPerFilter.filter (fun k => (foundFiles recognized date obs flt k).isEmpty)

/-- The missing optional labels of one filter. -/
def missingOptional (recognized : List FileRecord) (date obs flt : String) : List String :=
  optionalKeys.filter (fun k => (foundFiles recognized date obs flt k).isEmpty)

/-- The completeness gate: when some filter misses a required label, one
confirmation is read; any answer other than `y` (after strip and lower)
is fatal. An exhausted input stream models the `EOFError` of a real
`input()` call. -/
def completenessGate (missing : List (String × List String)) (st : St) :
    Except (St × Outcome) St :=
  if missing.any (fun p => !p.2.isEmpty) then
    match st.stdin with
    | [] => .error ({ st with prompts := st.prompts ++ [.proceedMissing] }, .exn)
    | a :: rest =>
      let st1 : St := { st with stdin := rest, prompts := st.prompts ++ [.proceedMissing] }
      if lowerStr (trimStr a) = "y" then .ok st1
      else .error (st1, .fatal "Aborted by user due to missing required TFOP files.")
  else .ok st

/-- Normalization of the transit-coverage argument: a fixed dictionary
lookup on the stripped, lower-cased string, defaulting to `Full`. -/
def covNormalize (c : String) : String :=
  let k := lowerStr (trimStr c)
  if k = "full" then "Full"
  else if k = "ingress" then "Ingress"
  else if k = "egress" then "Egress"
  else if k = "out of transit" then "Out of Transit"
  else "Full"

/-- The single-filter argument gate: `psf` and `deltamag` must be
present and non-empty (`psf in (None, "")` / `deltamag in (None, "")`);
the stripped deltamag `0` is replaced by the empty string. No other
validation is performed on the two values here. -/
def singleFilterCheck (psf deltamag : Option String) : Except String String :=
  match psf with
  | none => .error "ERROR: Single-filter run: please supply --psf."
  | some p =>
    if p = "" then .error "ERROR: Single-filter run: please supply --psf."
    else
      match deltamag with
      | none => .error "ERROR: Single-filter run: please supply --deltamag."
      | some d =>
        if d = "" then .error "ERROR: Single-filter run: please supply --deltamag."
        else
          let dms := trimStr d
          .ok (if dms = "0" then "" else dms)

/-- The numeric prompt loop: strip each successive answer and repeat
until one parses as a float; the result is the accepted stripped
answer, the remaining input, and the number of prompts issued. `none`
models input exhaustion. -/
def promptFloat : List String → Option (String × List String × ℕ)
  | [] => none
  | a :: rest =>
    let v := trimStr a
    if isPyFloat v then some (v, rest, 1)
    else
      match promptFloat rest with
      | none => none
      | some (x, r, n) => some (x, r, n + 1)

/-- The delta-magnitude prompt loop: as `promptFloat` but the empty
stripped answer is also accepted (and kept empty). -/
def promptDmag : List String → Option (String × List String × ℕ)
  | [] => none
  | a :: rest =>
    let v := trimStr a
    if v = "" || isPyFloat v then some (v, rest, 1)
    else
      match promptDmag rest with
      | none => none
      | some (x, r, n) => some (x, r, n + 1)

/-- First and last exposure values: from `EXPTIME` when present, else
from `EXPOSURE`, else `(0, 0)`; `none` models the `IndexError` of
indexing an empty column. -/
def expFirstLast (t : MTable) : Option (ℚ × ℚ) :=
  match getCol t "EXPTIME" with
  | some es =>
    match es.head?, es.getLast? with
    | some a, some b => some (a, b)
    | _, _ => none
  | none =>
    match getCol t "EXPOSURE" with
    | some es =>
      match es.head?, es.getLast? with
      | some a, some b => some (a, b)
      | _, _ => none
    | none => some (0, 0)

/-- Observation timing of the chosen table: fatal when `JD_UTC` is
absent; otherwise
`start = jd0 − 0.5·e0/86400`, `end = jd1 + 0.5·e1/86400`,
`int(round((end − start)·24·60))` minutes and the row count. -/
def timingOf (flt : String) (t : MTable) : Except Outcome (ℚ × ℚ × ℤ × ℕ) :=
  match getCol t "JD_UTC" with
  | none => .error (.fatal ("ERROR: JD_UTC not found in table (filter " ++ flt ++ ")."))
  | some jd =>
    match expFirstLast t with
    | none => .error .exn
    | some (e0, e1) =>
      match jd.head?, jd.getLast? with
      | some jd0, some jd1 =>
        let start := jd0 - (1 / 2) * e0 / 86400
        let stop := jd1 + (1 / 2) * e1 / 86400
        .ok (start, stop, pyRound ((stop - start) * 24 * 60), t.nrows)
      | _, _ => .error .exn

/-- The plate-scale scan: iterate the `Plate-Solved Image` files in
listed order, skip any whose reader raises, and accept the first whose
per-axis scales (converted to arcseconds) are all positive; the result
keeps the accepted filename and the mean scale (before the
2-significant-figure formatting of the code). -/
def wcsPick (env : Env) : List String → Option (String × ℚ)
  | [] => none
  | fn :: rest =>
    match env.wcsRead fn with
    | none => wcsPick env rest
    | some scales =>
      let arcsec := scales.map (fun q => q * 3600)
      if arcsec.all (fun q => decide (0 < q)) then some (fn, meanQ arcsec)
      else wcsPick env rest

/-- Aperture statistics of the chosen table: the guarded block around
`t['Source_Radius']` leaves both the radius string and the variability
note empty when the column is absent; otherwise the median is rendered
to one decimal and a positive span adds the fixed advisory phrase. -/
def apertureInfo (t : MTable) : String × String :=
  match getCol t "Source_Radius" with
  | none => ("", "")
  | some sr =>
    let pa := qRound1Str (medianQ sr)
    if spanQ sr > 0 then (pa, "aperture radius was variable in time") else (pa, "")

/-- The non-interactive data derived for one filter before the entry is
assembled. -/
structure Core where
  chosen : String
  startq : ℚ
  stopq : ℚ
  obsdur : ℤ
  obsnum : ℕ
  wcsFile : String
  pixscale : ℚ
  photaprad : String
  varNote : String
deriving DecidableEq

/-- Context of the per-filter loop: configuration, collaborators and the
run-wide values fixed before the loop. -/
structure Ctx where
  cfg : Config
  env : Env
  recognized : List FileRecord
  date : String
  obs : String
  chosenMap : String → Option String
  singleF : Bool
  cov : String
  tag : String
  dmSingle : String

/-- The chosen-table resolution of the build stage: the canonical table
of the filter when it is among the candidate list, else the first
candidate in sorted order (`chosen_tbl_by_flt.get(flt) if ... in
meas_candidates else sorted(meas_candidates)[0]`). -/
def resolvedTbl (recognized : List FileRecord) (date obs : String)
    (chosenMap : String → Option String) (flt : String) : String :=
  let meas := foundFiles recognized date obs flt "AstroImageJ Photometry Measurement Table"
  match chosenMap flt with
  | some c => if meas.contains c then c else (sortBy strLe meas).headD ""
  | none => (sortBy strLe meas).headD ""

/-- The rest of the non-interactive derivation, given the resolved
table name: the unguarded build-stage `Table.read` (`none` from the
reader propagates as an uncaught exception, `Outcome.exn`), timing,
plate scale and aperture statistics. -/
def buildPure (env : Env) (recognized : List FileRecord) (date obs : String)
    (chosenMap : String → Option String) (flt : String) : Except Outcome Core :=
  let meas := foundFiles recognized date obs flt "AstroImageJ Photometry Measurement Table"
  if meas.isEmpty then
    .error (.fatal ("ERROR: No measurement table found for filter " ++ flt ++ "."))
  else
    let chosen := resolvedTbl recognized date obs chosenMap flt
    match env.tableRead chosen with
    | none => .error .exn
    | some t =>
      match timingOf flt t with
      | .error o => .error o
      | .ok (startq, stopq, dur, n) =>
        match wcsPick env (foundFiles recognized date obs flt "Plate-Solved Image") with
        | none =>
          .error (.fatal ("ERROR: No valid WCS solution found in Plate-Solved Image for filter "
            ++ flt ++ "."))
        | some (wfn, ps) =>
          let pa := apertureInfo t
          .ok ⟨chosen, startq, stopq, dur, n, wfn, ps, pa.1, pa.2⟩

/-- Assembly of the submission record of one filter from the derived
core data and the point-spread/delta-magnitude strings. -/
def mkEntry (ctx : Ctx) (flt : String) (core : Core) (psfF dmF : String) : Entry :=
  let base := trimStr (ctx.cfg.notesArg.getD "")
  let notesF :=
    if core.varNote ≠ "" then
      (if base ≠ "" then base ++ "; " ++ core.varNote else core.varNote)
    else base
  { planet := ctx.cfg.toiLblUpload
    tel := ctx.obs
    telsize := ctx.cfg.telsize
    camera := ctx.cfg.camera
    filter := flt
    pixscale := core.pixscale
    psf := psfF
    photaprad := core.photaprad
    obsdate := ctx.date.take 4 ++ "-" ++ (ctx.date.drop 4).take 2 ++ "-" ++ ctx.date.drop 6
    obsdur := core.obsdur
    obsnum := core.obsnum
    obstype := "Continuous"
    transcov := ctx.cov
    deltamag := dmF
    tag := ctx.tag
    groupname := ctx.cfg.group
    notes := notesF
    id := ctx.cfg.ticNum }

/-- One iteration of the per-filter loop: derive the core data, then
take the point-spread width and delta-magnitude from the configuration
(single-filter run) or from the interactive prompt loops (multi-filter
run), and append the entry. -/
def buildOne (ctx : Ctx) (flt : String) (st : St) : Except (St × Outcome) St :=
  match buildPure ctx.env ctx.recognized ctx.date ctx.obs ctx.chosenMap flt with
  | .error o => .error (st, o)
  | .ok core =>
    if ctx.singleF then
      let psfF := trimStr (ctx.cfg.psf.getD "")
      .ok { st with entries := st.entries ++ [(flt, mkEntry ctx flt core psfF ctx.dmSingle)] }
    else
      match promptFloat st.stdin with
      | none => .error ({ st with stdin := [] }, .exn)
      | some (v, rest, n) =>
        let st1 : St := ⟨rest, st.prompts ++ List.replicate n (.psfFor flt), st.calls, st.entries⟩
        match promptDmag st1.stdin with
        | none => .error ({ st1 with stdin := [] }, .exn)
        | some (dv, rest2, n2) =>
          let st2 : St :=
            ⟨rest2, st1.prompts ++ List.replicate n2 (.dmagFor flt), st1.calls, st1.entries⟩
          .ok { st2 with entries := st2.entries ++ [(flt, mkEntry ctx flt core v dv)] }

/-- The per-filter loop over the sorted filter list. -/
def buildLoop (ctx : Ctx) : List String → St → Except (St × Outcome) St
  | [], st => .ok st
  | flt :: rest, st =>
    match buildOne ctx flt st with
    | .error e => .error e
    | .ok st1 => buildLoop ctx rest st1

/-- The upload order of one filter: the sorted measurement tables with
the canonical one moved first, then the remaining `order_types` in
fixed order, each sorted by filename. -/
def orderedUploads (ctx : Ctx) (flt : String) : List (String × String) :=
  let meas := sortBy strLe
    (foundFiles ctx.recognized ctx.date ctx.obs flt "AstroImageJ Photometry Measurement Table")
  let first :=
    match ctx.chosenMap flt with
    | some c =>
      if meas.contains c then
        (c, "AstroImageJ Photometry Measurement Table") ::
          (meas.filter (fun z => z ≠ c)).map
            (fun fn => (fn, "AstroImageJ Photometry Measurement Table"))
      else meas.map (fun fn => (fn, "AstroImageJ Photometry Measurement Table"))
    | none => meas.map (fun fn => (fn, "AstroImageJ Photometry Measurement Table"))
  first ++ ((orderTypes.drop 1).map (fun typ =>
    (sortBy strLe (foundFiles ctx.recognized ctx.date ctx.obs flt typ)).map
      (fun fn => (fn, typ)))).flatten

/-- The file-upload loop of one filter: one `insert_file` call per
ordered file; a non-success response is fatal. -/
def uploadFilesLoop (env : Env) : List (String × String) → St → Except (St × Outcome) St
  | [], st => .ok st
  | (fn, desc) :: rest, st =>
    let st1 : St := { st with calls := st.calls ++ [.fileUpload fn desc] }
    if env.fileOK fn then uploadFilesLoop env rest st1
    else .error (st1, .fatal ("ERROR: File upload failed: " ++ fn))

/-- The submission loop: per filter, one `insert_tseries` call unless
summaries are suppressed, then the file uploads unless uploads are
suppressed. -/
def submitLoop (ctx : Ctx) : List String → St → Except (St × Outcome) St
  | [], st => .ok st
  | flt :: rest, st =>
    let step1 : Except (St × Outcome) St :=
      if ctx.cfg.skipSummary then .ok st
      else
        let st1 : St := { st with calls := st.calls ++ [.tseries flt] }
        if ctx.env.tseriesOK flt then .ok st1
        else .error (st1, .fatal ("ERROR: Time Series Add failed (filter " ++ flt ++ ")."))
    match step1 with
    | .error e => .error e
    | .ok st1 =>
      let step2 : Except (St × Outcome) St :=
        if ctx.cfg.skipFiles then .ok st1
        else uploadFilesLoop ctx.env (orderedUploads ctx flt) st1
      match step2 with
      | .error e => .error e
      | .ok st2 => submitLoop ctx rest st2

/-- The tail of the run after the summaries are printed: when both
suppression flags are set the function returns at once; otherwise the
submit confirmation is read (`n` after strip and lower cancels through
the fatal `_err` path) and the submission loop runs. -/
def finale (ctx : Ctx) (filterList : List String) (st : St) : St × Outcome :=
  if ctx.cfg.skipSummary && ctx.cfg.skipFiles then (st, .normal)
  else
    match st.stdin with
    | [] => ({ st with prompts := st.prompts ++ [.submitConfirm] }, .exn)
    | a :: rest =>
      let st1 : St := { st with stdin := rest, prompts := st.prompts ++ [.submitConfirm] }
      if lowerStr (trimStr a) = "n" then (st1, .fatal "User cancelled before uploads.")
      else
        match submitLoop ctx filterList st1 with
        | .error e => e
        | .ok st2 => (st2, .normal)

/-- The per-filter loop followed by the finale. -/
def runPhases (ctx : Ctx) (filterList : List String) (st : St) : St × Outcome :=
  match buildLoop ctx filterList st with
  | .error e => e
  | .ok st2 => finale ctx filterList st2

/-- The whole run from the directory listing on (the model starts after
the login call): sort the listing, abort on a disallowed file, classify,
enforce the consistency checks, select the canonical tables, audit
completeness (with the single confirmation prompt), resolve coverage,
tag and single-filter arguments, then build the entries and submit. -/
def runUpload (cfg : Config) (env : Env) (dirFiles : List String) (stdin : List String) :
    St × Outcome :=
  let st0 : St := ⟨stdin, [], [], []⟩
  let files := sortBy strLe dirFiles
  match files.find? disallowedFile with
  | some f => (st0, .fatal ("ERROR: Disallowed file present: " ++ f))
  | none =>
    let recognized := recognizedOf cfg.expectedTgt files
    if recognized.isEmpty then (st0, .fatal "ERROR: No recognized files for given TIC/TOI.")
    else
      let dates := (recognized.map FileRecord.ymd).dedup
      let observatories := (recognized.map FileRecord.obs).dedup
      if dates.length > 1 || observatories.length > 1 then
        (st0, .fatal "ERROR: Multiple dates/observatories found.")
      else
        let date := dates.headD ""
        let obs := observatories.headD ""
        let filterList := sortBy strLe ((recognized.map FileRecord.flt).dedup)
        let globalNotes := recognized.filter (fun r => r.desc == "Notes and Results Text")
        if globalNotes.length ≠ 1 then
          (st0, .fatal "ERROR: Exactly one notes.txt must be present.")
        else if globalNotes.any (fun r => r.ymd ≠ date || r.obs ≠ obs) then
          (st0, .fatal "ERROR: notes.txt must match the date and observatory of the set.")
        else
          let chosenMap := fun flt => chosenTbl env recognized flt
          let missing := filterList.map (fun flt =>
            (flt, missingRequired recognized date obs flt))
          match completenessGate missing st0 with
          | .error e => e
          | .ok st1 =>
            let cov := covNormalize cfg.coverage
            let tag := date ++ "_" ++ cfg.username ++ "_tic" ++ cfg.ticNum ++ "_"
              ++ cfg.planetTic
            if filterList.length = 1 then
              match singleFilterCheck cfg.psf cfg.deltamag with
              | .error m => (st1, .fatal m)
              | .ok dm =>
                runPhases ⟨cfg, env, recognized, date, obs, chosenMap, true, cov, tag, dm⟩
                  filterList st1
            else
              runPhases ⟨cfg, env, recognized, date, obs, chosenMap, false, cov, tag, ""⟩
                filterList st1

/-- Filename of the scenario measurement table. -/
def fnTbl : String := "TIC12345678-01_20230115_ObsA_V_measurements.tbl"

/-- Filename of the scenario plate-solved image. -/
def fnWcs : String := "TIC12345678-01_20230115_ObsA_V_WCS.fits"

/-- Filename of the scenario notes file. -/
def fnNotes : String := "TIC12345678-01_20230115_ObsA_V_notes.txt"

/-- Scenario table with `JD_UTC` first/last 2459000.500/2459000.510,
60-second exposures and a constant `Source_Radius` of 10 pixels. -/
def tableFull : MTable :=
  ⟨[("JD_UTC", [24590005/10, 245900051/100]),
    ("EXPTIME", [60, 60]),
    ("Source_Radius", [10, 10])], 2⟩

/-- Scenario table lacking the `Source_Radius` column. -/
def tableNoSR : MTable :=
  ⟨[("JD_UTC", [24590005/10, 245900051/100]), ("EXPTIME", [60, 60])], 2⟩

/-- Scenario collaborators: the measurement table reads as `tableFull`,
the plate-solved image yields 0.5 arcsec per axis, and every network
call succeeds. -/
def envFull : Env :=
  ⟨fun fn => if fn = fnTbl then some tableFull else none,
   fun fn => if fn = fnWcs then some [1/7200, 1/7200] else none,
   fun _ => true, fun _ => true⟩

/-- Scenario configuration: single-filter arguments supplied, both
suppression flags set. -/
def cfgBase : Config :=
  ⟨"alice", "12345678", "01", "TOI1234.01", "Full", "0.4", "CamX", "tfopwg",
   some "3.41", some "0", none, true, true⟩

/-- The directory listing of the end-to-end scenario of the spec: one
valid table, one valid plate-solved image, one notes file, all dated
20230115 at ObsA in filter V with the expected prefix. -/
def filesBase : List String := [fnTbl, fnWcs, fnNotes]

/-- The recognized records of the scenario listing. -/
def recBase : List FileRecord := recognizedOf cfgBase.expectedTgt (sortBy strLe filesBase)

/-- The submission entry produced by the scenario run. -/
def entryBase : Entry :=
  ⟨"TOI1234.01", "ObsA", "0.4", "CamX", "V", 1/2, "3.41", "10.0", "2023-01-15", 15, 2,
   "Continuous", "Full", "", "20230115_alice_tic12345678_01", "tfopwg", "", "12345678"⟩

/-- Scenario configuration with the suppression flags cleared, so the
run reaches the submit confirmation and the upload loop. -/
def cfgLive : Config := { cfgBase with skipSummary := false, skipFiles := false }

/-- Scenario configuration with non-numeric point-spread and
delta-magnitude arguments. -/
def cfgBadPsf : Config := { cfgBase with psf := some "abc", deltamag := some "5..2" }

/-- Scenario collaborators for the sole-malformed-candidate run: every
table read raises. -/
def envBadTbl : Env := ⟨fun _ => none, fun _ => none, fun _ => true, fun _ => true⟩

/-- Directory listing with only the measurement table and the notes
file. -/
def filesTblNotes : List String := [fnTbl, fnNotes]

/-- Scenario configuration for the absent-`Source_Radius` run: live
uploads and a user-supplied notes string. -/
def cfgNoSR : Config := { cfgLive with notesArg := some "clear skies" }

/-- Scenario collaborators where the measurement table lacks the
`Source_Radius` column. -/
def envNoSR : Env :=
  ⟨fun fn => if fn = fnTbl then some tableNoSR else none,
   fun fn => if fn = fnWcs then some [1/7200, 1/7200] else none,
   fun _ => true, fun _ => true⟩

/-- The state carried by either result of an `Except (St × Outcome) St`
stage, used to state the frame invariants of the stages. -/
def stOutOf : Except (St × Outcome) St → St
  | .ok s => s
  | .error (s, _) => s

/-- A concrete loop context used to instantiate the finale-stage
theorems. -/
def ctxDemo : Ctx :=
  ⟨cfgLive, envFull, recBase, "20230115", "ObsA", fun _ => some fnTbl, true, "Full",
   "20230115_alice_tic12345678_01", ""⟩


/-! Order-theoretic facts about the hand-rolled comparators and the
stable sort, used by the canonical-selection claim. -/

theorem lexLt_asymm : ∀ {a b : List Char}, lexLt a b = true → lexLt b a = true → False
  | [], [], h, _ => by simp [lexLt] at h
  | [], _ :: _, _, h2 => by simp [lexLt] at h2
  | _ :: _, [], h1, _ => by simp [lexLt] at h1
  | a :: as, b :: bs, h1, h2 => by
    by_cases hab : a < b
    · have hba : ¬ b < a := lt_asymm hab
      simp [lexLt, hab, hba] at h2
    · by_cases hba : b < a
      · simp [lexLt, hab, hba] at h1
      · simp only [lexLt, if_neg hab, if_neg hba] at h1 h2
        exact lexLt_asymm h1 h2

theorem lexLt_trans : ∀ {a b c : List Char},
    lexLt a b = true → lexLt b c = true → lexLt a c = true
  | [], [], _, h1, _ => by simp [lexLt] at h1
  | [], _ :: _, [], _, h2 => by simp [lexLt] at h2
  | [], _ :: _, _ :: _, _, _ => by simp [lexLt]
  | _ :: _, [], _, h1, _ => by simp [lexLt] at h1
  | _ :: _, _ :: _, [], _, h2 => by simp [lexLt] at h2
  | a :: as, b :: bs, c :: cs, h1, h2 => by
    by_cases hab : a < b
    · by_cases hbc : b < c
      · have hac : a < c := lt_trans hab hbc
        simp [lexLt, hac]
      · by_cases hcb : c < b
        · simp [lexLt, hbc, hcb] at h2
        · have hbc' : b = c := le_antisymm (not_lt.mp hcb) (not_lt.mp hbc)
          subst hbc'
          simp [lexLt, hab]
    · by_cases hba : b < a
      · simp [lexLt, hab, hba] at h1
      · have hab' : a = b := le_antisymm (not_lt.mp hba) (not_lt.mp hab)
        subst hab'
        simp only [lexLt, if_neg hab, if_neg hba] at h1
        by_cases hac : a < c
        · simp [lexLt, hac]
        · by_cases hca : c < a
          · simp [lexLt, hac, hca] at h2
          · simp only [lexLt, if_neg hac, if_neg hca] at h2 ⊢
            exact lexLt_trans h1 h2

theorem lexLt_eq_of_not : ∀ {a b : List Char},
    lexLt a b = false → lexLt b a = false → a = b
  | [], [], _, _ => rfl
  | [], _ :: _, h1, _ => by simp [lexLt] at h1
  | _ :: _, [], _, h2 => by simp [lexLt] at h2
  | a :: as, b :: bs, h1, h2 => by
    by_cases hab : a < b
    · simp [lexLt, hab] at h1
    · by_cases hba : b < a
      · simp [lexLt, hab, hba] at h2
      · have hab' : a = b := le_antisymm (not_lt.mp hba) (not_lt.mp hab)
        subst hab'
        simp only [lexLt, if_neg hab, if_neg hba] at h1 h2
        rw [lexLt_eq_of_not h1 h2]

theorem strLe_total (a b : String) : strLe a b = true ∨ strLe b a = true := by
  by_cases h1 : strLt b a = true
  · right
    by_cases h2 : strLt a b = true
    · exact absurd (lexLt_asymm h1 h2) (fun f => f)
    · simp [strLe, Bool.not_eq_true] at h2 ⊢
      exact h2
  · left
    simp [strLe, Bool.not_eq_true] at h1 ⊢
    exact h1

theorem strLe_trans {a b c : String} (h1 : strLe a b = true) (h2 : strLe b c = true) :
    strLe a c = true := by
  simp only [strLe, Bool.not_eq_true', Bool.not_eq_true] at h1 h2 ⊢
  by_cases hca : strLt c a = true
  · exfalso
    by_cases hcb : strLt c b = true
    · rw [h2] at hcb
      exact Bool.false_ne_true hcb
    · by_cases hbc : strLt b c = true
      · have h3 : strLt b a = true := lexLt_trans hbc hca
        rw [h1] at h3
        exact Bool.false_ne_true h3
      · have hbceq : b.data = c.data :=
          lexLt_eq_of_not (Bool.not_eq_true _ ▸ hbc) (Bool.not_eq_true _ ▸ hcb)
        have h4 : strLt c a = strLt b a := by
          simp [strLt, hbceq]
        rw [h4, h1] at hca
        exact Bool.false_ne_true hca
  · exact Bool.not_eq_true _ ▸ hca

theorem strLe_antisymm {a b : String} (h1 : strLe a b = true) (h2 : strLe b a = true) :
    a = b := by
  simp only [strLe, Bool.not_eq_true'] at h1 h2
  have h3 : a.data = b.data := lexLt_eq_of_not h2 h1
  cases a
  cases b
  exact congrArg String.mk h3

theorem cmpThen_total {β : Type} [LinearOrder β] (f : α → β) (le2 : α → α → Bool)
    (htot : ∀ x y, le2 x y = true ∨ le2 y x = true) (a b : α) :
    cmpThen f le2 a b = true ∨ cmpThen f le2 b a = true := by
  unfold cmpThen
  rcases lt_trichotomy (f a) (f b) with h | h | h
  · left
    simp [h]
  · simp [h, lt_irrefl]
    exact htot a b
  · right
    simp [h]

theorem cmpThen_trans {β : Type} [LinearOrder β] (f : α → β) (le2 : α → α → Bool)
    (htr : ∀ x y z, le2 x y = true → le2 y z = true → le2 x z = true) (a b c : α)
    (h1 : cmpThen f le2 a b = true) (h2 : cmpThen f le2 b c = true) :
    cmpThen f le2 a c = true := by
  unfold cmpThen at h1 h2 ⊢
  by_cases hab : f a < f b
  · by_cases hbc : f b < f c
    · simp [lt_trans hab hbc]
    · by_cases hcb : f c < f b
      · simp [hbc, hcb] at h2
      · have hbc' : f b = f c := le_antisymm (not_lt.mp hcb) (not_lt.mp hbc)
        simp [hbc' ▸ hab]
  · by_cases hba : f b < f a
    · simp [hab, hba] at h1
    · have hab' : f a = f b := le_antisymm (not_lt.mp hba) (not_lt.mp hab)
      simp only [if_neg hab, if_neg hba] at h1
      by_cases hbc : f b < f c
      · simp [hab' ▸ hbc]
      · by_cases hcb : f c < f b
        · simp [hbc, hcb] at h2
        · simp only [if_neg hbc, if_neg hcb] at h2
          have hac : ¬ f a < f c := hab' ▸ hbc
          have hca : ¬ f c < f a := hab' ▸ hcb
          simp only [if_neg hac, if_neg hca]
          exact htr a b c h1 h2

theorem cmpThen_both {β : Type} [LinearOrder β] (f : α → β) (le2 : α → α → Bool) (a b : α)
    (h1 : cmpThen f le2 a b = true) (h2 : cmpThen f le2 b a = true) :
    le2 a b = true ∧ le2 b a = true := by
  unfold cmpThen at h1 h2
  by_cases hab : f a < f b
  · simp [hab, lt_asymm hab] at h2
  · by_cases hba : f b < f a
    · simp [hab, hba] at h1
    · simp only [if_neg hab, if_neg hba] at h1 h2
      exact ⟨h1, h2⟩

theorem statLE_total (a b : Stat) : statLE a b = true ∨ statLE b a = true := by
  unfold statLE
  refine cmpThen_total _ _ (fun x y => ?_) a b
  refine cmpThen_total _ _ (fun u v => ?_) x y
  refine cmpThen_total _ _ (fun p q => ?_) u v
  exact strLe_total p.fn q.fn

theorem statLE_trans (a b c : Stat) (h1 : statLE a b = true) (h2 : statLE b c = true) :
    statLE a c = true := by
  unfold statLE at h1 h2 ⊢
  refine cmpThen_trans _ _ (fun x y z hx hy => ?_) a b c h1 h2
  refine cmpThen_trans _ _ (fun u v w hu hv => ?_) x y z hx hy
  refine cmpThen_trans _ _ (fun p q r hp hq => ?_) u v w hu hv
  exact strLe_trans hp hq

theorem statLE_both_fn (a b : Stat) (h1 : statLE a b = true) (h2 : statLE b a = true) :
    a.fn = b.fn := by
  unfold statLE at h1 h2
  have g1 := cmpThen_both _ _ a b h1 h2
  have g2 := cmpThen_both _ _ a b g1.1 g1.2
  have g3 := cmpThen_both _ _ a b g2.1 g2.2
  exact strLe_antisymm g3.1 g3.2

theorem perm_insertLe (le : α → α → Bool) (a : α) :
    ∀ l : List α, List.Perm (insertLe le a l) (a :: l)
  | [] => List.Perm.refl _
  | b :: t => by
    unfold insertLe
    by_cases h : le a b = true
    · simp [h]
    · simp only [h, if_false]
      exact ((perm_insertLe le a t).cons b).trans (List.Perm.swap a b t)

theorem perm_sortBy (le : α → α → Bool) : ∀ l : List α, List.Perm (sortBy le l) l
  | [] => List.Perm.refl _
  | a :: t => by
    unfold sortBy
    exact (perm_insertLe le a (sortBy le t)).trans ((perm_sortBy le t).cons a)

theorem mem_insertLe (le : α → α → Bool) (a x : α) (l : List α)
    (h : x ∈ insertLe le a l) : x = a ∨ x ∈ l := by
  have := (perm_insertLe le a l).mem_iff.mp h
  simpa using this

theorem pairwise_insertLe (le : α → α → Bool)
    (htot : ∀ x y, le x y = true ∨ le y x = true)
    (htr : ∀ x y z, le x y = true → le y z = true → le x z = true) (a : α) :
    ∀ l : List α, l.Pairwise (fun x y => le x y = true) →
      (insertLe le a l).Pairwise (fun x y => le x y = true)
  | [], _ => by simp [insertLe]
  | b :: t, h => by
    unfold insertLe
    rcases List.pairwise_cons.mp h with ⟨hbt, ht⟩
    by_cases hab : le a b = true
    · simp only [hab, if_true]
      refine List.pairwise_cons.mpr ⟨?_, h⟩
      intro x hx
      rcases List.mem_cons.mp hx with rfl | hxt
      · exact hab
      · exact htr a b x hab (hbt x hxt)
    · have hba : le b a = true := (htot a b).resolve_left hab
      simp only [hab, if_false]
      refine List.pairwise_cons.mpr ⟨?_, pairwise_insertLe le htot htr a t ht⟩
      intro x hx
      rcases mem_insertLe le a x t hx with rfl | hxt
      · exact hba
      · exact hbt x hxt

theorem pairwise_sortBy (le : α → α → Bool)
    (htot : ∀ x y, le x y = true ∨ le y x = true)
    (htr : ∀ x y z, le x y = true → le y z = true → le x z = true) :
    ∀ l : List α, (sortBy le l).Pairwise (fun x y => le x y = true)
  | [] => by simp [sortBy]
  | a :: t => by
    unfold sortBy
    exact pairwise_insertLe le htot htr a (sortBy le t) (pairwise_sortBy le htot htr t)

theorem sortBy_head_le (le : α → α → Bool)
    (htot : ∀ x y, le x y = true ∨ le y x = true)
    (htr : ∀ x y z, le x y = true → le y z = true → le x z = true)
    {l : List α} {h : α} {t : List α} (heq : sortBy le l = h :: t) :
    ∀ x ∈ l, le h x = true := by
  intro x hx
  have hx' : x ∈ h :: t := heq ▸ (perm_sortBy le l).mem_iff.mpr hx
  rcases List.mem_cons.mp hx' with rfl | hxt
  · rcases htot x x with hxx | hxx <;> exact hxx
  · have hp := pairwise_sortBy le htot htr l
    rw [heq] at hp
    exact (List.pairwise_cons.mp hp).1 x hxt

/-- C1. For every set of candidate measurement tables of one filter,
summarised as `(filename, median, variability flag, pixel token)`, the
canonical table chosen by the code (stable sort by the key
`(−median, variability, −pixelToken-as-integer-or-0, filename)`
followed by taking the first element) is exactly the first summary
whose key is less than or equal to the key of every candidate — the
first element under ascending lexicographic order by that key. Both
sides are pure functions of the summaries, so the selection is
deterministic: identical candidate data yields the identical file. -/
theorem c1_canonical_table_selection (stats : List Stat) :
    selectCanonical stats = (firstMinBy stats).map Stat.fn := by
  cases hs : sortBy statLE stats with
  | nil =>
    have hlen : stats.length = 0 := by
      have hl := (perm_sortBy statLE stats).length_eq
      rw [hs] at hl
      simpa using hl.symm
    have hnil : stats = [] := List.eq_nil_of_length_eq_zero hlen
    subst hnil
    simp [selectCanonical, firstMinBy, sortBy]
  | cons hd tl =>
    have hmem : hd ∈ stats := (perm_sortBy statLE stats).mem_iff.mp
      (by rw [hs]; exact List.mem_cons_self hd tl)
    have hmin : ∀ x ∈ stats, statLE hd x = true :=
      sortBy_head_le statLE statLE_total statLE_trans hs
    have hph : (stats.all (fun y => statLE hd y)) = true :=
      List.all_eq_true.mpr (fun y hy => hmin y hy)
    obtain ⟨x0, hfind⟩ :
        ∃ x0, stats.find? (fun x => stats.all (fun y => statLE x y)) = some x0 := by
      have hsome : (stats.find? (fun x => stats.all (fun y => statLE x y))).isSome :=
        List.find?_isSome.mpr ⟨hd, hmem, hph⟩
      exact Option.isSome_iff_exists.mp hsome
    have hpx : (stats.all (fun y => statLE x0 y)) = true := by
      have hx := List.find?_some hfind
      exact hx
    have hx0mem : x0 ∈ stats := List.mem_of_find?_eq_some hfind
    have h1 : statLE x0 hd = true := (List.all_eq_true.mp hpx) hd hmem
    have h2 : statLE hd x0 = true := hmin x0 hx0mem
    have hfneq : hd.fn = x0.fn := statLE_both_fn hd x0 h2 h1
    unfold firstMinBy
    simp [selectCanonical, hs, hfind, hfneq]

/-- C2. For every filename and expected target, classification yields
exactly one of the two outcomes — a `FileRecord` or a rejection — never
both and never neither; every rejection carries exactly one of the
three reason strings (pattern mismatch, prefix mismatch, unrecognized
role token); and on the success path the descriptor is the label of the
first rule-table entry whose pattern fully matches the tail, the table
being consulted in its fixed priority order (`List.find?` over
`allowedSpecs`). -/
theorem c2_classification_total_first_match (expectedTgt fn : String) :
    ((∃ r, classify expectedTgt fn = .ok r) ∨ (∃ s, classify expectedTgt fn = .rejected s)) ∧
    (∀ r s, classify expectedTgt fn = .ok r → classify expectedTgt fn = .rejected s → False) ∧
    (∀ s, classify expectedTgt fn = .rejected s → s ∈ classifyReasons) ∧
    (∀ r, classify expectedTgt fn = .ok r →
      ∃ m pr, parseBase fn.data = some m ∧
        String.mk (m.tgt ++ '-' :: m.pp) = expectedTgt ∧
        allowedSpecs.find? (fun q => m.tail == q.1.data) = some pr ∧
        r.desc = pr.2 ∧ r.fn = fn) := by
  refine ⟨?_, ?_, ?_, ?_⟩
  · cases hc : classify expectedTgt fn with
    | ok r => exact Or.inl ⟨r, rfl⟩
    | rejected s => exact Or.inr ⟨s, rfl⟩
  · intro r s h1 h2
    rw [h1] at h2
    exact ClassifyResult.noConfusion h2
  · intro s h
    unfold classify at h
    split at h
    · cases h
      simp [classifyReasons]
    · split at h
      · cases h
        simp [classifyReasons]
      · split at h
        · cases h
          simp [classifyReasons]
        · exact ClassifyResult.noConfusion h
  · intro r h
    unfold classify at h
    split at h
    · exact ClassifyResult.noConfusion h
    next m hp =>
      split at h
      · exact ClassifyResult.noConfusion h
      next hne =>
        split at h
        · exact ClassifyResult.noConfusion h
        next pr hf =>
          cases h
          exact ⟨m, pr, hp, not_not.mp hne, hf, rfl, rfl⟩

/-- C3. For every chosen table containing a `JD_UTC` column with first
and last values `jd0`, `jd1` and exposure endpoints `(e0, e1)` as
resolved by the EXPTIME-then-EXPOSURE-then-0 rule, the builder computes
`start = jd0 − 0.5·e0/86400`, `end = jd1 + 0.5·e1/86400`, a duration of
`round((end − start)·1440)` minutes (round half to even, as Python
`round`), and a sample count equal to the row count of the table; the
final three conjuncts characterise the exposure-endpoint rule itself. -/
theorem c3_timing_derivation :
    (∀ (flt : String) (t : MTable) (jd : List ℚ) (jd0 jd1 e0 e1 : ℚ),
      getCol t "JD_UTC" = some jd → jd.head? = some jd0 → jd.getLast? = some jd1 →
      expFirstLast t = some (e0, e1) →
      timingOf flt t = .ok (jd0 - (1/2) * e0 / 86400, jd1 + (1/2) * e1 / 86400,
        pyRound ((jd1 + (1/2) * e1 / 86400 - (jd0 - (1/2) * e0 / 86400)) * 1440), t.nrows)) ∧
    (∀ (t : MTable) (es : List ℚ) (a b : ℚ), getCol t "EXPTIME" = some es →
      es.head? = some a → es.getLast? = some b → expFirstLast t = some (a, b)) ∧
    (∀ (t : MTable) (es : List ℚ) (a b : ℚ), getCol t "EXPTIME" = none →
      getCol t "EXPOSURE" = some es → es.head? = some a → es.getLast? = some b →
      expFirstLast t = some (a, b)) ∧
    (∀ t : MTable, getCol t "EXPTIME" = none → getCol t "EXPOSURE" = none →
      expFirstLast t = some (0, 0)) := by
  refine ⟨?_, ?_, ?_, ?_⟩
  · intro flt t jd jd0 jd1 e0 e1 hjd h0 h1 he
    unfold timingOf
    rw [hjd]
    dsimp only
    rw [he]
    dsimp only
    rw [h0, h1]
    dsimp only
    have harith : (jd1 + (1/2) * e1 / 86400 - (jd0 - (1/2) * e0 / 86400)) * 24 * 60 =
        (jd1 + (1/2) * e1 / 86400 - (jd0 - (1/2) * e0 / 86400)) * 1440 := by ring
    rw [harith]
  · intro t es a b he h0 h1
    unfold expFirstLast
    rw [he]
    dsimp only
    rw [h0, h1]
  · intro t es a b hn he h0 h1
    unfold expFirstLast
    rw [hn]
    dsimp only
    rw [he]
    dsimp only
    rw [h0, h1]
  · intro t hn he
    unfold expFirstLast
    rw [hn]
    dsimp only
    rw [he]

/-- Witness for C3: the theorem applied to the scenario table, whose
`JD_UTC` endpoints are 2459000.500 and 2459000.510 with 60-second
exposures; the computed duration evaluates to 15 minutes. -/
theorem c3_witness :
    timingOf "V" tableFull = .ok ((24590005 : ℚ)/10 - (1/2) * 60 / 86400,
      (245900051 : ℚ)/100 + (1/2) * 60 / 86400,
      pyRound (((245900051 : ℚ)/100 + (1/2) * 60 / 86400 -
        ((24590005 : ℚ)/10 - (1/2) * 60 / 86400)) * 1440), 2) ∧
    pyRound (((245900051 : ℚ)/100 + (1/2) * 60 / 86400 -
      ((24590005 : ℚ)/10 - (1/2) * 60 / 86400)) * 1440) = 15 :=
  ⟨c3_timing_derivation.1 "V" tableFull [24590005/10, 245900051/100] (24590005/10)
    (245900051/100) 60 60 (by decide) (by decide) (by decide) (by decide), by decide⟩

/-- C4. For every filter group, `missingRequired` is exactly the set of
required labels with no matching record in the group, and
`missingOptional` the analogous set over the optional labels; whenever
some filter has a non-empty `missingRequired`, the completeness gate
issues exactly one confirmation prompt, consumes exactly one answer,
proceeds only on the affirmative answer `y` (after strip and lower),
and is fatal (`Aborted by user ...`) on every other answer; with no
gaps, no prompt is issued. -/
theorem c4_completeness_audit :
    (∀ (recognized : List FileRecord) (date obs flt k : String),
      k ∈ missingRequired recognized date obs flt ↔
        k ∈ requiredKeysPerFilter ∧ foundFiles recognized date obs flt k = []) ∧
    (∀ (recognized : List FileRecord) (date obs flt k : String),
      k ∈ missingOptional recognized date obs flt ↔
        k ∈ optionalKeys ∧ foundFiles recognized date obs flt k = []) ∧
    (∀ (missing : List (String × List String)) (stdin0 : List String)
      (prompts0 : List PromptKind) (calls0 : List NetCall) (entries0 : List (String × Entry))
      (a : String) (rest : List String),
      (∃ p ∈ missing, p.2 ≠ []) → stdin0 = a :: rest →
      (lowerStr (trimStr a) = "y" →
        completenessGate missing ⟨stdin0, prompts0, calls0, entries0⟩ =
          .ok ⟨rest, prompts0 ++ [.proceedMissing], calls0, entries0⟩) ∧
      (lowerStr (trimStr a) ≠ "y" →
        completenessGate missing ⟨stdin0, prompts0, calls0, entries0⟩ =
          .error (⟨rest, prompts0 ++ [.proceedMissing], calls0, entries0⟩,
            .fatal "Aborted by user due to missing required TFOP files."))) ∧
    (∀ (missing : List (String × List String)) (st : St),
      (∀ p ∈ missing, p.2 = []) → completenessGate missing st = .ok st) := by
  refine ⟨?_, ?_, ?_, ?_⟩
  · intro recognized date obs flt k
    unfold missingRequired
    rw [List.mem_filter]
    simp [List.isEmpty_iff]
  · intro recognized date obs flt k
    unfold missingOptional
    rw [List.mem_filter]
    simp [List.isEmpty_iff]
  · intro missing stdin0 prompts0 calls0 entries0 a rest hmiss hstdin
    subst hstdin
    have hany : missing.any (fun p => !p.2.isEmpty) = true := by
      rcases hmiss with ⟨p, hp, hne⟩
      exact List.any_eq_true.mpr ⟨p, hp, by simpa [List.isEmpty_iff] using hne⟩
    constructor
    · intro hy
      unfold completenessGate
      rw [if_pos hany]
      dsimp only
      rw [if_pos hy]
    · intro hn
      unfold completenessGate
      rw [if_pos hany]
      dsimp only
      rw [if_neg hn]
  · intro missing st hall
    have hany : missing.any (fun p => !p.2.isEmpty) = false := by
      rw [List.any_eq_false]
      intro p hp
      simp [List.isEmpty_iff, hall p hp]
    unfold completenessGate
    rw [hany]
    simp

/-- Witness for C4: with only the scenario measurement table recognized
for filter V, the label Seeing Profile is missing-required (the theorem
applied at that concrete group), and a `n` answer at the gate is fatal. -/
theorem c4_witness :
    ("Seeing Profile" ∈ missingRequired recBase "20230115" "ObsA" "V" ↔
      "Seeing Profile" ∈ requiredKeysPerFilter ∧
        foundFiles recBase "20230115" "ObsA" "V" "Seeing Profile" = []) ∧
    completenessGate [("V", ["Seeing Profile"])] ⟨["n"], [], [], []⟩ =
      .error (⟨[], [.proceedMissing], [], []⟩,
        .fatal "Aborted by user due to missing required TFOP files.") :=
  ⟨c4_completeness_audit.1 recBase "20230115" "ObsA" "V" "Seeing Profile",
   (c4_completeness_audit.2.2.1 [("V", ["Seeing Profile"])] ["n"] [] [] [] "n" []
     ⟨("V", ["Seeing Profile"]), by decide, by decide⟩ rfl).2 (by decide)⟩

/-- Counterexample for C5. At the exact directory of the end-to-end
scenario (one valid table, one valid plate-solved image, one notes
file, all `20230115`/`ObsA`/`V` under prefix `TIC12345678-01`), the set
of missing required descriptors is not empty — six of the eight
required labels are absent — and with a non-affirmative confirmation
the run never reaches the submission-entry building stage, so the
claimed "zero missing required descriptors" is false. -/
theorem c5_counterexample :
    missingRequired recBase "20230115" "ObsA" "V" ≠ [] ∧
    (runUpload cfgBase envFull filesBase ["q"]).2 =
      .fatal "Aborted by user due to missing required TFOP files." := by decide

/-- C5 (amended). At the end-to-end scenario directory, the missing
required descriptors for filter V are exactly the six labels other than
the measurement table and the plate-solved image; after the
completeness confirmation is answered affirmatively the run reaches the
submission-entry building stage and terminates normally with exactly
one SubmissionEntry, for filter V. -/
theorem c5_amended_scenario :
    missingRequired recBase "20230115" "ObsA" "V" =
      ["AstroImageJ Plot Configuration File", "AstroImageJ Photometry Aperture File",
       "Compstar Light Curve Plots", "Field Image with Apertures", "Zoomed-in FOV",
       "Seeing Profile"] ∧
    runUpload cfgBase envFull filesBase ["y"] =
      (⟨[], [.proceedMissing], [], [("V", entryBase)]⟩, .normal) := by decide

/-- Counterexample for C6. When the only measurement-table candidate of
filter V is malformed (every table read raises), the run does not
terminate with the fatal no-candidates error: the selection stage
downgrades the failure to the sentinel and still chooses the file, and
the unguarded build-stage re-read then escapes as a raw exception
(`Outcome.exn`), not as any `_err` exit. -/
theorem c6_counterexample :
    runUpload cfgBase envBadTbl filesTblNotes ["y"] =
      (⟨[], [.proceedMissing], [], []⟩, .exn) ∧
    (runUpload cfgBase envBadTbl filesTblNotes ["y"]).2 ≠
      .fatal ("ERROR: No measurement table found for filter V.") := by decide

/-- C6 (amended). A table-reader failure during canonical selection is
converted into the sentinel summary `(−10⁹, variability 1)` rather than
propagated; a WCS-reader failure during the plate-scale scan is caught
and the file skipped; but the build-stage re-read of the resolved table
is unguarded, so when the reader fails there (in particular when the
sole candidate is malformed) the failure escapes as a raw uncaught
exception instead of becoming a fatal NoCandidates error. -/
theorem c6_amended_reader_failures :
    (∀ (env : Env) (x : FileRecord), env.tableRead x.fn = none →
      statOf env x = ⟨x.fn, -(1000000000 : ℚ), 1, x.px⟩) ∧
    (∀ (env : Env) (fn : String) (rest : List String), env.wcsRead fn = none →
      wcsPick env (fn :: rest) = wcsPick env rest) ∧
    (∀ (env : Env) (recognized : List FileRecord) (date obs flt : String)
      (chosenMap : String → Option String),
      (foundFiles recognized date obs flt
        "AstroImageJ Photometry Measurement Table").isEmpty = false →
      env.tableRead (resolvedTbl recognized date obs chosenMap flt) = none →
      buildPure env recognized date obs chosenMap flt = .error .exn) := by
  refine ⟨?_, ?_, ?_⟩
  · intro env x h
    unfold statOf
    rw [h]
  · intro env fn rest h
    rw [wcsPick, h]
  · intro env recognized date obs flt chosenMap hne hread
    unfold buildPure
    simp only [hne]
    rw [if_neg (by simp)]
    rw [hread]

/-- Witness for C6 (amended): the sentinel summary and the raw-exception
escape at the concrete sole-malformed-candidate scenario. -/
theorem c6_witness :
    statOf envBadTbl
      ⟨fnTbl, "AstroImageJ Photometry Measurement Table", "20230115", "ObsA", "V", ""⟩ =
      ⟨fnTbl, -(1000000000 : ℚ), 1, ""⟩ ∧
    buildPure envBadTbl recBase "20230115" "ObsA" (fun _ => some fnTbl) "V" = .error .exn :=
  ⟨c6_amended_reader_failures.1 envBadTbl
     ⟨fnTbl, "AstroImageJ Photometry Measurement Table", "20230115", "ObsA", "V", ""⟩ rfl,
   c6_amended_reader_failures.2.2 envBadTbl recBase "20230115" "ObsA" "V" (fun _ => some fnTbl)
     (by decide) rfl⟩

/-- Counterexample for C7. A user-cancelled run does not exit with
status 0: declining the submit confirmation goes through the fatal
`_err` path (audible alert, message, `sys.exit(1)`), so the exit code
is 1. -/
theorem c7_counterexample :
    runUpload cfgLive envFull filesBase ["y", "n"] =
      (⟨[], [.proceedMissing, .submitConfirm], [], [("V", entryBase)]⟩,
        .fatal "User cancelled before uploads.") ∧
    exitCode (runUpload cfgLive envFull filesBase ["y", "n"]).2 = 1 := by decide

/-- C7 (amended). Every fatal error exits with status 1 (through `_err`,
paired with the audible alert), an uncaught exception also yields a
nonzero (status-1) exit, and only normal completion exits with status
0; user cancellation at the submit confirmation is itself a fatal
error, not a normal completion. -/
theorem c7_amended_exit_codes :
    (∀ m, exitCode (.fatal m) = 1) ∧ exitCode .normal = 0 ∧ exitCode .exn = 1 ∧
    (∀ (ctx : Ctx) (filterList : List String) (stdin0 : List String)
      (prompts0 : List PromptKind) (calls0 : List NetCall) (entries0 : List (String × Entry))
      (a : String) (rest : List String),
      (ctx.cfg.skipSummary && ctx.cfg.skipFiles) = false → stdin0 = a :: rest →
      lowerStr (trimStr a) = "n" →
      finale ctx filterList ⟨stdin0, prompts0, calls0, entries0⟩ =
        (⟨rest, prompts0 ++ [.submitConfirm], calls0, entries0⟩,
          .fatal "User cancelled before uploads.")) := by
  refine ⟨fun m => rfl, rfl, rfl, ?_⟩
  intro ctx filterList stdin0 prompts0 calls0 entries0 a rest hflag hstdin hn
  subst hstdin
  unfold finale
  simp only [hflag]
  rw [if_neg (by simp)]
  rw [if_pos hn]

/-- Witness for C7 (amended): the cancellation branch applied at a
concrete context and state. -/
theorem c7_witness :
    finale ctxDemo ["V"] ⟨["n"], [], [], []⟩ =
      (⟨[], [.submitConfirm], [], []⟩, .fatal "User cancelled before uploads.") :=
  c7_amended_exit_codes.2.2.2 ctxDemo ["V"] ["n"] [] [] [] "n" [] (by decide) rfl (by decide)

/-- Counterexample for C8. In a single-filter run the supplied
point-spread width and delta-magnitude are not validated as numeric:
with the non-numeric arguments `abc` and `5..2` the run completes
normally and the submission entry carries them verbatim. -/
theorem c8_counterexample :
    runUpload cfgBadPsf envFull filesBase ["y"] =
      (⟨[], [.proceedMissing], [],
        [("V", { entryBase with psf := "abc", deltamag := "5..2" })]⟩, .normal) ∧
    isPyFloat "abc" = false ∧ isPyFloat "5..2" = false := by decide

theorem promptFloat_spec : ∀ (stdin : List String) (v : String) (rest : List String) (n : ℕ),
    promptFloat stdin = some (v, rest, n) →
    ∃ pre a post, stdin = pre ++ a :: post ∧
      (∀ b ∈ pre, isPyFloat (trimStr b) = false) ∧
      isPyFloat (trimStr a) = true ∧ v = trimStr a ∧ rest = post ∧ n = pre.length + 1
  | [], v, rest, n, h => by simp [promptFloat] at h
  | a :: t, v, rest, n, h => by
    unfold promptFloat at h
    by_cases hv : isPyFloat (trimStr a) = true
    · rw [if_pos hv] at h
      injection h with h1
      injection h1 with hv1 h2
      injection h2 with hr hn
      exact ⟨[], a, t, rfl, by simp, hv, hv1.symm, hr.symm, by simp [hn.symm]⟩
    · rw [if_neg hv] at h
      cases hr : promptFloat t with
      | none =>
        rw [hr] at h
        exact Option.noConfusion h
      | some y =>
        rw [hr] at h
        obtain ⟨x, r, m⟩ := y
        injection h with h1
        injection h1 with hv1 h2
        injection h2 with hrr hn
        obtain ⟨pre, b, post, ht, hpre, hb, hx, hrp, hm⟩ :=
          promptFloat_spec t x r m hr
        refine ⟨a :: pre, b, post, by simp [ht], ?_, hb, by rw [← hv1, hx], by rw [← hrr, hrp],
          by simp [← hn, hm]⟩
        intro c hc
        rcases List.mem_cons.mp hc with rfl | hcp
        · exact Bool.not_eq_true _ ▸ hv
        · exact hpre c hcp

theorem promptDmag_spec : ∀ (stdin : List String) (v : String) (rest : List String) (n : ℕ),
    promptDmag stdin = some (v, rest, n) →
    ∃ pre a post, stdin = pre ++ a :: post ∧
      (∀ b ∈ pre, trimStr b ≠ "" ∧ isPyFloat (trimStr b) = false) ∧
      (trimStr a = "" ∨ isPyFloat (trimStr a) = true) ∧
      v = trimStr a ∧ rest = post ∧ n = pre.length + 1
  | [], v, rest, n, h => by simp [promptDmag] at h
  | a :: t, v, rest, n, h => by
    unfold promptDmag at h
    by_cases hv : (trimStr a = "" || isPyFloat (trimStr a)) = true
    · rw [if_pos hv] at h
      injection h with h1
      injection h1 with hv1 h2
      injection h2 with hr hn
      refine ⟨[], a, t, rfl, by simp, ?_, hv1.symm, hr.symm, by simp [hn.symm]⟩
      rcases Bool.or_eq_true_iff.mp hv with he | hf
      · exact Or.inl (by simpa using he)
      · exact Or.inr hf
    · rw [if_neg hv] at h
      cases hr : promptDmag t with
      | none =>
        rw [hr] at h
        exact Option.noConfusion h
      | some y =>
        rw [hr] at h
        obtain ⟨x, r, m⟩ := y
        injection h with h1
        injection h1 with hv1 h2
        injection h2 with hrr hn
        obtain ⟨pre, b, post, ht, hpre, hb, hx, hrp, hm⟩ :=
          promptDmag_spec t x r m hr
        refine ⟨a :: pre, b, post, by simp [ht], ?_, hb, by rw [← hv1, hx], by rw [← hrr, hrp],
          by simp [← hn, hm]⟩
        intro c hc
        rcases List.mem_cons.mp hc with rfl | hcp
        · have hv' := Bool.or_eq_false_iff.mp (Bool.not_eq_true _ ▸ hv)
          exact ⟨by simpa using hv'.1, hv'.2⟩
        · exact hpre c hcp

/-- C8 (amended). In a single-filter run the point-spread width and
delta-magnitude must be supplied and non-empty, but no numeric
validation is performed on them; a stripped delta-magnitude of `0`
means leave-blank. In a multi-filter run the program prompts per
filter and repeats the prompt until an answer parses as a float (or,
for the delta-magnitude, until the stripped answer is empty): the
accepted value is the first valid answer and one prompt is issued per
attempt. -/
theorem c8_amended_numeric_validation :
    (∀ d, singleFilterCheck none d = .error "ERROR: Single-filter run: please supply --psf.") ∧
    (∀ d, singleFilterCheck (some "") d =
      .error "ERROR: Single-filter run: please supply --psf.") ∧
    (∀ p, p ≠ "" → singleFilterCheck (some p) none =
      .error "ERROR: Single-filter run: please supply --deltamag.") ∧
    (∀ p, p ≠ "" → singleFilterCheck (some p) (some "") =
      .error "ERROR: Single-filter run: please supply --deltamag.") ∧
    (∀ p d, p ≠ "" → d ≠ "" → singleFilterCheck (some p) (some d) =
      .ok (if trimStr d = "0" then "" else trimStr d)) ∧
    (∀ (stdin : List String) (v : String) (rest : List String) (n : ℕ),
      promptFloat stdin = some (v, rest, n) →
      ∃ pre a post, stdin = pre ++ a :: post ∧
        (∀ b ∈ pre, isPyFloat (trimStr b) = false) ∧
        isPyFloat (trimStr a) = true ∧ v = trimStr a ∧ rest = post ∧ n = pre.length + 1) ∧
    (∀ (stdin : List String) (v : String) (rest : List String) (n : ℕ),
      promptDmag stdin = some (v, rest, n) →
      ∃ pre a post, stdin = pre ++ a :: post ∧
        (∀ b ∈ pre, trimStr b ≠ "" ∧ isPyFloat (trimStr b) = false) ∧
        (trimStr a = "" ∨ isPyFloat (trimStr a) = true) ∧
        v = trimStr a ∧ rest = post ∧ n = pre.length + 1) := by
  refine ⟨fun d => rfl, fun d => rfl, ?_, ?_, ?_, promptFloat_spec, promptDmag_spec⟩
  · intro p hp
    simp [singleFilterCheck, hp]
  · intro p hp
    simp [singleFilterCheck, hp]
  · intro p d hp hd
    simp [singleFilterCheck, hp, hd]

/-- Witness for C8 (amended): non-empty single-filter arguments pass
with the `0`-means-blank rule, and a concrete multi-filter prompt
sequence accepts the first numeric answer after two invalid attempts. -/
theorem c8_witness :
    singleFilterCheck (some "abc") (some "0") = .ok "" ∧
    (∃ pre a post, (["x", "y,z", "3.41", "tail"] : List String) = pre ++ a :: post ∧
      (∀ b ∈ pre, isPyFloat (trimStr b) = false) ∧
      isPyFloat (trimStr a) = true ∧ "3.41" = trimStr a ∧ ["tail"] = post ∧ 3 = pre.length + 1) :=
  ⟨by
    have h := c8_amended_numeric_validation.2.2.2.2.1 "abc" "0" (by decide) (by decide)
    rw [h]
    rfl,
   c8_amended_numeric_validation.2.2.2.2.2.1 ["x", "y,z", "3.41", "tail"] "3.41" ["tail"] 3
     (by decide)⟩

theorem completenessGate_frame (missing : List (String × List String)) (st : St) :
    (stOutOf (completenessGate missing st)).calls = st.calls ∧
    (PromptKind.submitConfirm ∈ (stOutOf (completenessGate missing st)).prompts ↔
      PromptKind.submitConfirm ∈ st.prompts) := by
  unfold completenessGate
  by_cases hany : missing.any (fun p => !p.2.isEmpty) = true
  · rw [if_pos hany]
    cases hstdin : st.stdin with
    | nil =>
      dsimp [stOutOf]
      simp
    | cons a rest =>
      dsimp only
      by_cases hy : lowerStr (trimStr a) = "y"
      · rw [if_pos hy]
        dsimp [stOutOf]
        simp
      · rw [if_neg hy]
        dsimp [stOutOf]
        simp
  · rw [if_neg hany]
    exact ⟨rfl, Iff.rfl⟩

theorem buildOne_frame (ctx : Ctx) (flt : String) (st : St) :
    (stOutOf (buildOne ctx flt st)).calls = st.calls ∧
    (PromptKind.submitConfirm ∈ (stOutOf (buildOne ctx flt st)).prompts ↔
      PromptKind.submitConfirm ∈ st.prompts) := by
  unfold buildOne
  cases hb : buildPure ctx.env ctx.recognized ctx.date ctx.obs ctx.chosenMap flt with
  | error o => exact ⟨rfl, Iff.rfl⟩
  | ok core =>
    dsimp only
    by_cases hs : ctx.singleF = true
    · rw [if_pos hs]
      dsimp [stOutOf]
      simp
    · rw [if_neg hs]
      cases hp : promptFloat st.stdin with
      | none => exact ⟨rfl, Iff.rfl⟩
      | some y =>
        obtain ⟨v, rest, n⟩ := y
        dsimp only
        cases hd : promptDmag rest with
        | none =>
          dsimp [stOutOf]
          simp
        | some z =>
          obtain ⟨dv, rest2, n2⟩ := z
          dsimp [stOutOf]
          simp [List.mem_replicate]

theorem buildLoop_frame (ctx : Ctx) : ∀ (fl : List String) (st : St),
    (stOutOf (buildLoop ctx fl st)).calls = st.calls ∧
    (PromptKind.submitConfirm ∈ (stOutOf (buildLoop ctx fl st)).prompts ↔
      PromptKind.submitConfirm ∈ st.prompts)
  | [], st => ⟨rfl, Iff.rfl⟩
  | flt :: rest, st => by
    unfold buildLoop
    cases hb : buildOne ctx flt st with
    | error e =>
      have h := buildOne_frame ctx flt st
      rw [hb] at h
      exact h
    | ok st1 =>
      have h1 := buildOne_frame ctx flt st
      rw [hb] at h1
      dsimp [stOutOf] at h1
      have h2 := buildLoop_frame ctx rest st1
      exact ⟨h2.1.trans h1.1, h2.2.trans h1.2⟩

theorem finale_skip (ctx : Ctx) (fl : List String) (st : St)
    (hs : ctx.cfg.skipSummary = true) (hf : ctx.cfg.skipFiles = true) :
    finale ctx fl st = (st, .normal) := by
  unfold finale
  rw [if_pos (by rw [hs, hf]; rfl)]

theorem runPhases_skip_frame (ctx : Ctx) (fl : List String) (st : St)
    (hs : ctx.cfg.skipSummary = true) (hf : ctx.cfg.skipFiles = true) :
    (runPhases ctx fl st).1.calls = st.calls ∧
    (PromptKind.submitConfirm ∈ (runPhases ctx fl st).1.prompts ↔
      PromptKind.submitConfirm ∈ st.prompts) := by
  unfold runPhases
  cases hb : buildLoop ctx fl st with
  | error e =>
    have h := buildLoop_frame ctx fl st
    rw [hb] at h
    exact h
  | ok st2 =>
    dsimp only
    rw [finale_skip ctx fl st2 hs hf]
    have h := buildLoop_frame ctx fl st
    rw [hb] at h
    exact h

/-- C9. When both suppression flags are set, the finale returns normally
(exit status 0) immediately after the per-filter summaries, without
reading the submit confirmation and without touching the call or prompt
state; consequently a whole run with both flags set performs no
submission or file-upload network call and never issues the submit
confirmation prompt. -/
theorem c9_skip_flags_frame :
    (∀ (ctx : Ctx) (fl : List String) (st : St),
      ctx.cfg.skipSummary = true → ctx.cfg.skipFiles = true →
      finale ctx fl st = (st, .normal) ∧ exitCode (finale ctx fl st).2 = 0) ∧
    (∀ (cfg : Config) (env : Env) (dirFiles stdin : List String),
      cfg.skipSummary = true → cfg.skipFiles = true →
      (runUpload cfg env dirFiles stdin).1.calls = [] ∧
      PromptKind.submitConfirm ∉ (runUpload cfg env dirFiles stdin).1.prompts) := by
  constructor
  · intro ctx fl st hs hf
    refine ⟨finale_skip ctx fl st hs hf, ?_⟩
    rw [finale_skip ctx fl st hs hf]
    rfl
  · intro cfg env dirFiles stdin hs hf
    unfold runUpload
    dsimp only
    cases hdis : List.find? disallowedFile (sortBy strLe dirFiles) with
    | some f => exact ⟨rfl, by simp⟩
    | none =>
      by_cases hrec : (recognizedOf cfg.expectedTgt (sortBy strLe dirFiles)).isEmpty = true
      · rw [if_pos hrec]
        exact ⟨rfl, by simp⟩
      · rw [if_neg hrec]
        dsimp only
        by_cases hmult :
          (decide (((recognizedOf cfg.expectedTgt (sortBy strLe dirFiles)).map
              FileRecord.ymd).dedup.length > 1) ||
           decide (((recognizedOf cfg.expectedTgt (sortBy strLe dirFiles)).map
              FileRecord.obs).dedup.length > 1)) = true
        · rw [if_pos hmult]
          exact ⟨rfl, by simp⟩
        · rw [if_neg hmult]
          by_cases hnotes : ((recognizedOf cfg.expectedTgt (sortBy strLe dirFiles)).filter
              (fun r => r.desc == "Notes and Results Text")).length ≠ 1
          · rw [if_pos hnotes]
            exact ⟨rfl, by simp⟩
          · rw [if_neg hnotes]
            by_cases hmatch : ((recognizedOf cfg.expectedTgt (sortBy strLe dirFiles)).filter
                (fun r => r.desc == "Notes and Results Text")).any
                (fun r => decide (r.ymd ≠ ((recognizedOf cfg.expectedTgt
                  (sortBy strLe dirFiles)).map FileRecord.ymd).dedup.headD "") ||
                 decide (r.obs ≠ ((recognizedOf cfg.expectedTgt
                  (sortBy strLe dirFiles)).map FileRecord.obs).dedup.headD "")) = true
            · rw [if_pos hmatch]
              exact ⟨rfl, by simp⟩
            · rw [if_neg hmatch]
              generalize hmiss : List.map _ _ = missing
              cases hg : completenessGate missing ⟨stdin, [], [], []⟩ with
              | error e =>
                have h := completenessGate_frame missing ⟨stdin, [], [], []⟩
                rw [hg] at h
                dsimp [stOutOf] at h
                exact ⟨h.1, fun hmem => by simpa using h.2.mp hmem⟩
              | ok st1 =>
                have h := completenessGate_frame missing ⟨stdin, [], [], []⟩
                rw [hg] at h
                dsimp [stOutOf] at h
                dsimp only
                by_cases hone : (sortBy strLe ((recognizedOf cfg.expectedTgt
                    (sortBy strLe dirFiles)).map FileRecord.flt).dedup).length = 1
                · rw [if_pos hone]
                  cases hsf : singleFilterCheck cfg.psf cfg.deltamag with
                  | error m => exact ⟨h.1, fun hmem => by simpa using h.2.mp hmem⟩
                  | ok dm =>
                    dsimp only
                    have hr := runPhases_skip_frame
                      ⟨cfg, env, recognizedOf cfg.expectedTgt (sortBy strLe dirFiles),
                        ((recognizedOf cfg.expectedTgt (sortBy strLe dirFiles)).map
                          FileRecord.ymd).dedup.headD "",
                        ((recognizedOf cfg.expectedTgt (sortBy strLe dirFiles)).map
                          FileRecord.obs).dedup.headD "",
                        fun flt => chosenTbl env (recognizedOf cfg.expectedTgt
                          (sortBy strLe dirFiles)) flt, true, covNormalize cfg.coverage,
                        ((recognizedOf cfg.expectedTgt (sortBy strLe dirFiles)).map
                          FileRecord.ymd).dedup.headD "" ++ "_" ++ cfg.username ++ "_tic"
                          ++ cfg.ticNum ++ "_" ++ cfg.planetTic, dm⟩
                      (sortBy strLe ((recognizedOf cfg.expectedTgt
                        (sortBy strLe dirFiles)).map FileRecord.flt).dedup) st1 hs hf
                    exact ⟨hr.1.trans h.1, fun hmem => by
                      have := h.2.mp (hr.2.mp hmem)
                      simp at this⟩
                · rw [if_neg hone]
                  have hr := runPhases_skip_frame
                    ⟨cfg, env, recognizedOf cfg.expectedTgt (sortBy strLe dirFiles),
                      ((recognizedOf cfg.expectedTgt (sortBy strLe dirFiles)).map
                        FileRecord.ymd).dedup.headD "",
                      ((recognizedOf cfg.expectedTgt (sortBy strLe dirFiles)).map
                        FileRecord.obs).dedup.headD "",
                      fun flt => chosenTbl env (recognizedOf cfg.expectedTgt
                        (sortBy strLe dirFiles)) flt, false, covNormalize cfg.coverage,
                      ((recognizedOf cfg.expectedTgt (sortBy strLe dirFiles)).map
                        FileRecord.ymd).dedup.headD "" ++ "_" ++ cfg.username ++ "_tic"
                        ++ cfg.ticNum ++ "_" ++ cfg.planetTic, ""⟩
                    (sortBy strLe ((recognizedOf cfg.expectedTgt
                      (sortBy strLe dirFiles)).map FileRecord.flt).dedup) st1 hs hf
                  exact ⟨hr.1.trans h.1, fun hmem => by
                    have := h.2.mp (hr.2.mp hmem)
                    simp at this⟩

/-- Witness for C9: the theorem applied at the concrete both-flags
scenario run. -/
theorem c9_witness :
    (runUpload cfgBase envFull filesBase ["y"]).1.calls = [] ∧
    PromptKind.submitConfirm ∉ (runUpload cfgBase envFull filesBase ["y"]).1.prompts :=
  c9_skip_flags_frame.2 cfgBase envFull filesBase ["y"] rfl rfl

/-- C10. When the chosen canonical table has no `Source_Radius` column
at submission-entry build time, the failure is silently swallowed: the
photometric aperture radius field of the entry is the empty string and
no variability advisory is appended to the notes; the run proceeds to
build and submit the entry — in the concrete scenario the run ends
normally with the entry submitted (its aperture field empty and its
notes exactly the user-supplied text) and the files uploaded. -/
theorem c10_absent_source_radius :
    (∀ t : MTable, getCol t "Source_Radius" = none → apertureInfo t = ("", "")) ∧
    runUpload cfgNoSR envNoSR filesBase ["y", ""] =
      (⟨[], [.proceedMissing, .submitConfirm],
        [.tseries "V", .fileUpload fnTbl "AstroImageJ Photometry Measurement Table",
         .fileUpload fnNotes "Notes and Results Text", .fileUpload fnWcs "Plate-Solved Image"],
        [("V", { entryBase with photaprad := "", notes := "clear skies" })]⟩, .normal) := by
  constructor
  · intro t h
    unfold apertureInfo
    rw [h]
  · decide

/-- Witness for C10: the theorem applied at the concrete scenario table
that lacks the `Source_Radius` column. -/
theorem c10_witness : apertureInfo tableNoSR = ("", "") :=
  c10_absent_source_radius.1 tableNoSR rfl

/-- Witness for C2: the classification of the scenario measurement
table, with the theorem applied at that concrete filename. -/
theorem c2_witness :
    ∃ m pr, parseBase fnTbl.data = some m ∧
      String.mk (m.tgt ++ '-' :: m.pp) = "TIC12345678-01" ∧
      allowedSpecs.find? (fun q => m.tail == q.1.data) = some pr ∧
      (FileRecord.mk fnTbl "AstroImageJ Photometry Measurement Table"
        "20230115" "ObsA" "V" "").desc = pr.2 ∧
      (FileRecord.mk fnTbl "AstroImageJ Photometry Measurement Table"
        "20230115" "ObsA" "V" "").fn = fnTbl :=
  (c2_classification_total_first_match "TIC12345678-01" fnTbl).2.2.2
    ⟨fnTbl, "AstroImageJ Photometry Measurement Table", "20230115", "ObsA", "V", ""⟩
    (by decide)

end SG1
